import Mathlib

/-!
Verification of the multi-account Google Search Console MCP server
(`src/accounts.ts`): the `AccountManager` credential store and client
cache, and the `SearchConsoleService` analytics transformations
(`detectQuickWins`, `comparePeriods`) and permission-error fallback.

JavaScript numbers are modelled as rationals (`ℚ`), epoch-millisecond
timestamps as `ℕ`, optional fields as `Option`, and thrown errors as
`Except`.  A JavaScript `Map` is modelled as an insertion-ordered
association list (`mapSet`/`mapGet`/`mapDelete` below reproduce its
`set`/`get`/`delete` semantics).  Since `AccountManager` stores one
mutable account object under two keys, the maps hold indices into an
explicit store (`ManagerState.store`), so aliasing is preserved.
-/

deriving instance DecidableEq for Except

namespace GSC

/-! ## JavaScript primitives -/

/-- `s.toLowerCase()` modelled characterwise with `Char.toLower`. -/
def jsToLower (s : String) : String := ⟨s.data.map Char.toLower⟩

/-- `a || b` for an optional number, where `0` is falsy. -/
def jsOrQ (a : Option ℚ) (b : ℚ) : ℚ :=
  match a with
  | some x => if x = 0 then b else x
  | none => b

/-- `a || b` for an optional epoch-millisecond value, where `0` is falsy. -/
def jsOrNat (a : Option ℕ) (b : ℕ) : ℕ :=
  match a with
  | some n => if n = 0 then b else n
  | none => b

/-- `a || b` for an optional string, where `""` is falsy. -/
def jsOrStr (a : Option String) (b : String) : String :=
  match a with
  | some s => if s = "" then b else s
  | none => b

/-- Truthiness of an optional string (`undefined` and `""` are falsy). -/
def jsTruthyStr : Option String → Bool
  | none => false
  | some s => decide (s ≠ "")

/-- `x || undefined` for an optional string. -/
def jsOrUndefStr : Option String → Option String
  | none => none
  | some s => if s = "" then none else some s

/-- `x || undefined` for an optional number. -/
def jsOrUndefNat : Option ℕ → Option ℕ
  | none => none
  | some n => if n = 0 then none else some n

/-- `Math.round`, which rounds half toward positive infinity
(`⌊q + 1/2⌋`, computed with `Rat.floor` so the kernel can evaluate it). -/
def jsRound (q : ℚ) : ℚ := ((q + 1/2).floor : ℤ)

/-- `Math.max` on rationals. -/
def jsMax (a b : ℚ) : ℚ := if a ≤ b then b else a

/-- `Number(x.toFixed(1))`: round to one decimal place. -/
def roundTo1 (q : ℚ) : ℚ := jsRound (q * 10) / 10

/-- `Number(x.toFixed(2))`: round to two decimal places. -/
def roundTo2 (q : ℚ) : ℚ := jsRound (q * 100) / 100

/-- Decimal rendering of `x.toFixed(1)` (used only in a display string). -/
def toFixed1Str (q : ℚ) : String :=
  let n : ℤ := (q * 10 + 1/2).floor
  let a := n.natAbs
  (if n < 0 then "-" else "") ++ toString (a / 10) ++ "." ++ toString (a % 10)

theorem ratFloor_eq_intFloor (q : ℚ) : (q.floor : ℤ) = ⌊q⌋ := by
  rw [Rat.floor_def, Rat.floor_def']

/-- `jsRound` agrees with Mathlib's `round`. -/
theorem jsRound_eq_round (q : ℚ) : jsRound q = (round q : ℤ) := by
  rw [jsRound, ratFloor_eq_intFloor, round_eq]

/-- `jsMax` agrees with Mathlib's `max`. -/
theorem jsMax_eq_max (a b : ℚ) : jsMax a b = max a b := by
  rw [jsMax, max_def]

/-! ## JavaScript `Map` as an insertion-ordered association list -/

/-- `m.set(k, v)`: overwrite in place if the key exists, else append. -/
def mapSet {β : Type} : List (String × β) → String → β → List (String × β)
  | [], k, v => [(k, v)]
  | p :: t, k, v => if p.1 = k then (k, v) :: t else p :: mapSet t k v

/-- `m.get(k)`. -/
def mapGet {β : Type} : List (String × β) → String → Option β
  | [], _ => none
  | p :: t, k => if p.1 = k then some p.2 else mapGet t k

/-- `m.delete(k)`. -/
def mapDelete {β : Type} : List (String × β) → String → List (String × β)
  | [], _ => []
  | p :: t, k => if p.1 = k then mapDelete t k else p :: mapDelete t k

theorem mapGet_mapSet_self {β : Type} (m : List (String × β)) (k : String)
    (v : β) : mapGet (mapSet m k v) k = some v := by
  induction m with
  | nil => simp [mapSet, mapGet]
  | cons p t ih =>
    by_cases hp : p.1 = k
    · simp [mapSet, mapGet, hp]
    · simp [mapSet, mapGet, hp, ih]

theorem mapGet_mapSet_ne {β : Type} (m : List (String × β)) (k k' : String)
    (v : β) (h : k' ≠ k) : mapGet (mapSet m k v) k' = mapGet m k' := by
  induction m with
  | nil => simp [mapSet, mapGet, Ne.symm h]
  | cons p t ih =>
    by_cases hp : p.1 = k
    · simp [mapSet, mapGet, hp, Ne.symm h]
    · by_cases hp' : p.1 = k'
      · simp [mapSet, mapGet, hp, hp', h]
      · simp [mapSet, mapGet, hp, hp', ih]

theorem mapGet_mapDelete_self {β : Type} (m : List (String × β))
    (k : String) : mapGet (mapDelete m k) k = none := by
  induction m with
  | nil => simp [mapDelete, mapGet]
  | cons p t ih =>
    by_cases hp : p.1 = k
    · simp [mapDelete, mapGet, hp, ih]
    · simp [mapDelete, mapGet, hp, ih]

theorem mapGet_mapDelete_ne {β : Type} (m : List (String × β))
    (k k' : String) (h : k' ≠ k) :
    mapGet (mapDelete m k) k' = mapGet m k' := by
  induction m with
  | nil => simp [mapDelete, mapGet]
  | cons p t ih =>
    by_cases hp : p.1 = k
    · simp [mapDelete, mapGet, hp, ih, Ne.symm h]
    · by_cases hp' : p.1 = k'
      · simp [mapDelete, mapGet, hp, hp', h]
      · simp [mapDelete, mapGet, hp, hp', ih]

/-! ## Search-analytics rows (`webmasters_v3.Schema$ApiDataRow`)

A raw row returned by `searchanalytics.query`; every field is optional. -/

structure ApiRow where
  keys : Option (List String)
  clicks : Option ℚ
  impressions : Option ℚ
  ctr : Option ℚ
  position : Option ℚ
deriving DecidableEq

/-! ## `SearchConsoleService.detectQuickWins` (src/accounts.ts:328-397)

The network fetch is external; the embedding covers the pure
transformation applied to the fetched rows. -/

inductive Opportunity where
  | High
  | Medium
  | Low
deriving DecidableEq

structure QuickWin where
  query : String
  page : String
  currentPosition : ℚ
  impressions : ℚ
  currentClicks : ℚ
  currentCtr : ℚ
  potentialClicks : ℚ
  additionalClicks : ℚ
  opportunity : Opportunity
  optimizationNote : String
deriving DecidableEq

structure QuickWinThresholds where
  minImpressions : ℚ
  maxCtr : ℚ
  positionRangeMin : ℚ
  positionRangeMax : ℚ
  limit : ℕ

/-- Defaults declared in `src/schemas.ts:70-74`. -/
def defaultThresholds : QuickWinThresholds :=
  { minImpressions := 100, maxCtr := 3, positionRangeMin := 4,
    positionRangeMax := 20, limit := 50 }

/-- The `.filter` predicate of `detectQuickWins` (src/accounts.ts:351-362). -/
def passesQuickWinFilter (th : QuickWinThresholds) (row : ApiRow) : Bool :=
  let impressions := jsOrQ row.impressions 0
  let ctr := (jsOrQ row.ctr 0) * 100
  let position := jsOrQ row.position 0
  decide (impressions ≥ th.minImpressions) && decide (ctr ≤ th.maxCtr) &&
    decide (position ≥ th.positionRangeMin) &&
    decide (position ≤ th.positionRangeMax)

/-- The `.map` body of `detectQuickWins` (src/accounts.ts:363-392). -/
def toQuickWin (row : ApiRow) : QuickWin :=
  let impressions := jsOrQ row.impressions 0
  let currentClicks := jsOrQ row.clicks 0
  let currentCtr := (jsOrQ row.ctr 0) * 100
  let position := jsOrQ row.position 0
  let targetCtr : ℚ := if position ≤ 5 then 8 else if position ≤ 10 then 5 else 3
  let potentialClicks := jsRound ((impressions * targetCtr) / 100)
  let additionalClicks := jsMax 0 (potentialClicks - currentClicks)
  let opportunity : Opportunity :=
    if additionalClicks ≥ 100 then .High
    else if additionalClicks ≥ 30 then .Medium
    else .Low
  { query := jsOrStr ((row.keys.getD []).get? 0) "N/A"
    page := jsOrStr ((row.keys.getD []).get? 1) "N/A"
    currentPosition := roundTo1 position
    impressions := impressions
    currentClicks := currentClicks
    currentCtr := roundTo2 currentCtr
    potentialClicks := potentialClicks
    additionalClicks := additionalClicks
    opportunity := opportunity
    optimizationNote :=
      "Position " ++ toFixed1Str position ++ " → Target top 3 for " ++
        toString targetCtr.num ++ "% CTR" }

/-- The `.sort` comparator `(a, b) => b.additionalClicks - a.additionalClicks`
keeps `a` before `b` exactly when the comparator is non-positive;
`Array.prototype.sort` is a stable sort. -/
def quickWinLE (a b : QuickWin) : Bool :=
  decide (b.additionalClicks ≤ a.additionalClicks)

/-- Filter, map and sort stages of `detectQuickWins`, before `slice`. -/
def quickWinsSorted (rows : List ApiRow) (th : QuickWinThresholds) :
    List QuickWin :=
  ((rows.filter (passesQuickWinFilter th)).map toQuickWin).mergeSort quickWinLE

/-- `detectQuickWins` (src/accounts.ts:350-394): filter, map, stable sort
descending by `additionalClicks`, then `.slice(0, limit)`. -/
def detectQuickWins (rows : List ApiRow) (th : QuickWinThresholds) :
    List QuickWin :=
  (quickWinsSorted rows th).take th.limit

/-! ## `SearchConsoleService.comparePeriods` (src/accounts.ts:454-567)

The two fetches are external; the embedding covers the join, per-row delta
computation and sort over the fetched row sets. -/

structure PeriodMetrics where
  clicks : ℚ
  impressions : ℚ
  position : ℚ
  ctr : ℚ
deriving DecidableEq

structure PeriodChange where
  clicks : ℚ
  clicksPercent : Option ℚ
  impressions : ℚ
  position : ℚ
  ctr : ℚ
deriving DecidableEq

structure ComparisonRow where
  keys : Option (List String)
  current : PeriodMetrics
  previous : PeriodMetrics
  change : PeriodChange
deriving DecidableEq

/-- `Array.prototype.join(sep)`. -/
def joinSep (sep : String) : List String → String
  | [] => ""
  | [s] => s
  | s :: rest => s ++ sep ++ joinSep sep rest

/-- `row.keys?.join('|')` (`undefined` when `keys` is absent). -/
def rowKey (r : ApiRow) : Option String :=
  r.keys.map (fun ks => joinSep "|" ks)

/-- `previousLookup` is `new Map(previousRows.map(row => [row.keys?.join('|'), row]))`;
`get` returns the value of the last pair carrying the key.  The stored key
may be `undefined` (`none`); a lookup by string `k` matches only `some k`. -/
def previousLookupGet (previousRows : List ApiRow) (k : String) :
    Option ApiRow :=
  (previousRows.filter (fun r => rowKey r = some k)).getLast?

/-- The `.map` body of `comparePeriods` (src/accounts.ts:489-526): join one
current-period row against the previous-period lookup and compute deltas.
The lookup key is `key || ''` where `key = currentRow.keys?.join('|')`. -/
def compareRow (previousRows : List ApiRow) (currentRow : ApiRow) :
    ComparisonRow :=
  let key := rowKey currentRow
  let previousRow := previousLookupGet previousRows (jsOrStr key "")
  let currentClicks := jsOrQ currentRow.clicks 0
  let previousClicks := jsOrQ (previousRow.bind ApiRow.clicks) 0
  let currentImpressions := jsOrQ currentRow.impressions 0
  let previousImpressions := jsOrQ (previousRow.bind ApiRow.impressions) 0
  let currentPosition := jsOrQ currentRow.position 0
  let previousPosition := jsOrQ (previousRow.bind ApiRow.position) 0
  let currentCtr := (jsOrQ currentRow.ctr 0) * 100
  let previousCtr := (jsOrQ (previousRow.bind ApiRow.ctr) 0) * 100
  { keys := currentRow.keys
    current :=
      { clicks := currentClicks
        impressions := currentImpressions
        position := roundTo1 currentPosition
        ctr := roundTo2 currentCtr }
    previous :=
      { clicks := previousClicks
        impressions := previousImpressions
        position := roundTo1 previousPosition
        ctr := roundTo2 previousCtr }
    change :=
      { clicks := currentClicks - previousClicks
        clicksPercent :=
          if previousClicks > 0 then
            some (roundTo1 (((currentClicks - previousClicks) /
              previousClicks) * 100))
          else none
        impressions := currentImpressions - previousImpressions
        position := roundTo1 (previousPosition - currentPosition)
        ctr := roundTo2 (currentCtr - previousCtr) } }

/-- The comparator `(a, b) => b.change.clicks - a.change.clicks`. -/
def comparisonLE (a b : ComparisonRow) : Bool :=
  decide (b.change.clicks ≤ a.change.clicks)

/-- The `comparison` array of `comparePeriods`: map every current-period
row, then sort (stably) by biggest click gains. -/
def comparePeriodsRows (currentRows previousRows : List ApiRow) :
    List ComparisonRow :=
  (currentRows.map (compareRow previousRows)).mergeSort comparisonLE

/-! ## `AccountManager` (src/accounts.ts:39-219)

`accounts: Map<string, GSCAccount>` holds the same mutable account object
under the account's `id` and under its lowercased `email`.  To preserve
that aliasing the embedded map stores indices into `ManagerState.store`
(one entry per account object ever created); `authClients` caches one
OAuth client per key. -/

structure GSCAccount where
  id : String
  email : String
  refreshToken : String
  accessToken : Option String
  expiresAt : Option ℕ
deriving DecidableEq

/-- The credential state of a `google-auth-library` `OAuth2Client`. -/
structure Credentials where
  refresh_token : Option String
  access_token : Option String
  expiry_date : Option ℕ
deriving DecidableEq

structure OAuth2Client where
  clientId : String
  clientSecret : String
  redirectUri : String
  credentials : Credentials
deriving DecidableEq

structure ManagerState where
  clientId : String
  clientSecret : String
  accounts : List (String × ℕ)
  store : List GSCAccount
  authClients : List (String × OAuth2Client)
deriving DecidableEq

def emptyManager (clientId clientSecret : String) : ManagerState :=
  { clientId := clientId, clientSecret := clientSecret,
    accounts := [], store := [], authClients := [] }

def defaultAccount : GSCAccount := ⟨"", "", "", none, none⟩

/-- `addAccount` (src/accounts.ts:107-114): store the record under the `id`
key and the lowercased `email` key, and drop any cached auth client under
either key.  The fresh record is appended to the store; both map entries
point at it. -/
def addAccount (st : ManagerState) (account : GSCAccount) : ManagerState :=
  let ref := st.store.length
  { st with
    accounts := mapSet (mapSet st.accounts account.id ref)
      (jsToLower account.email) ref
    store := st.store ++ [account]
    authClients := mapDelete (mapDelete st.authClients account.id)
      (jsToLower account.email) }

/-- `registerAccount` (src/accounts.ts:119-121). -/
def registerAccount (st : ManagerState) (id email refreshToken : String)
    (accessToken : Option String) : ManagerState :=
  addAccount st ⟨id, email, refreshToken, accessToken, none⟩

/-- A state built by a sequence of registrations on a fresh manager. -/
def regSeq (clientId clientSecret : String) (l : List GSCAccount) :
    ManagerState :=
  l.foldl addAccount (emptyManager clientId clientSecret)

/-- `listAccounts` (src/accounts.ts:126-138): iterate the map in insertion
order, emitting `{id, email}` for the first occurrence of each `id`. -/
def listAccountsAux (store : List GSCAccount) :
    List (String × ℕ) → List String → List (String × String)
  | [], _ => []
  | (_, ref) :: rest, seen =>
    let a := store.getD ref defaultAccount
    if a.id ∈ seen then listAccountsAux store rest seen
    else (a.id, a.email) :: listAccountsAux store rest (a.id :: seen)

def listAccounts (st : ManagerState) : List (String × String) :=
  listAccountsAux st.store st.accounts []

/-- `getAccount` (src/accounts.ts:143-145): exact key, then lowercased. -/
def getAccountRef (st : ManagerState) (idOrEmail : String) : Option ℕ :=
  match mapGet st.accounts idOrEmail with
  | some r => some r
  | none => mapGet st.accounts (jsToLower idOrEmail)

def getAccount (st : ManagerState) (idOrEmail : String) :
    Option GSCAccount :=
  (getAccountRef st idOrEmail).map (fun r => st.store.getD r defaultAccount)

/-- `count` (src/accounts.ts:216-218). -/
def accountCount (st : ManagerState) : ℕ := (listAccounts st).length

/-- The account-selection step of `getAuthClient`
(src/accounts.ts:152-166): explicit selector or "first available". -/
def resolveRef (st : ManagerState) (sel : Option String) :
    Except String ℕ :=
  match sel with
  | some s =>
    match getAccountRef st s with
    | some r => .ok r
    | none => .error ("Account not found: " ++ s)
  | none =>
    match listAccounts st with
    | [] => .error "No accounts configured. Use register_account or set GSC_ACCOUNTS_JSON/GSC_ACCOUNTS_FILE"
    | (id0, _) :: _ =>
      match getAccountRef st id0 with
      | some r => .ok r
      | none => .error "TypeError: account is undefined"

/-- A new `OAuth2Client(clientId, clientSecret, 'http://localhost')` seeded
with `setCredentials({refresh_token, access_token})`
(src/accounts.ts:173-178); note `expiry_date` is left unset. -/
def freshClient (st : ManagerState) (a : GSCAccount) : OAuth2Client :=
  { clientId := st.clientId, clientSecret := st.clientSecret,
    redirectUri := "http://localhost",
    credentials :=
      { refresh_token := some a.refreshToken,
        access_token := a.accessToken,
        expiry_date := none } }

/-- The client used for an account: the cached one, else a fresh one
(src/accounts.ts:168-191). -/
def obtainClient (st : ManagerState) (a : GSCAccount) : OAuth2Client :=
  match mapGet st.authClients a.id with
  | some c => c
  | none => freshClient st a

/-- `expiresAt = tokens.expiry_date || account.expiresAt || 0`
(src/accounts.ts:196). -/
def effectiveExpiry (c : Credentials) (a : GSCAccount) : ℕ :=
  jsOrNat c.expiry_date (jsOrNat a.expiresAt 0)

/-- `!tokens.access_token || expiresAt < now + 60000`
(src/accounts.ts:198). -/
def needsRefresh (c : Credentials) (a : GSCAccount) (now : ℕ) : Bool :=
  !jsTruthyStr c.access_token || decide (effectiveExpiry c a < now + 60000)

structure AuthResult where
  client : OAuth2Client
  account : GSCAccount
deriving DecidableEq

/-- `getAuthClient` (src/accounts.ts:150-211).  `now` is `Date.now()` and
`refresh` is the outcome of the external `client.refreshAccessToken()`
call (performed at most once per invocation).  On success the new
credentials are written to the client and through to the account record;
on failure the whole operation fails naming the account's email.  Returns
the result together with the updated manager state. -/
def getAuthClient (st : ManagerState) (sel : Option String) (now : ℕ)
    (refresh : Except String Credentials) :
    Except String AuthResult × ManagerState :=
  match resolveRef st sel with
  | .error e => (.error e, st)
  | .ok ref =>
    let a := st.store.getD ref defaultAccount
    let client := obtainClient st a
    let st1 : ManagerState :=
      { st with authClients :=
          match mapGet st.authClients a.id with
          | some _ => st.authClients
          | none => mapSet st.authClients a.id client }
    if needsRefresh client.credentials a now then
      match refresh with
      | .error e =>
        (.error ("Failed to refresh token for " ++ a.email ++ ": " ++ e),
          st1)
      | .ok creds =>
        let client2 := { client with credentials := creds }
        let a2 := { a with
          accessToken := jsOrUndefStr creds.access_token,
          expiresAt := jsOrUndefNat creds.expiry_date }
        (.ok ⟨client2, a2⟩,
          { st1 with
            store := st1.store.set ref a2,
            authClients := mapSet st1.authClients a.id client2 })
    else (.ok ⟨client, a⟩, st1)

/-! ## `SearchConsoleService` URL normalization and permission fallback
(src/accounts.ts:274-301) -/

/-- A value thrown by a failing API call: an `Error` with a message, or
any other thrown value. -/
inductive JsThrown where
  | err (message : String)
  | other
deriving DecidableEq

/-- Does the character list start with the given pattern? -/
def charsStartWith : List Char → List Char → Bool
  | _, [] => true
  | [], _ :: _ => false
  | c :: cs, p :: ps => c = p && charsStartWith cs ps

/-- Does the character list contain the pattern as a contiguous run? -/
def charsContain : List Char → List Char → Bool
  | [], pat => pat.isEmpty
  | c :: rest, pat => charsStartWith (c :: rest) pat || charsContain rest pat

/-- `String.prototype.includes`. -/
def jsIncludes (s pat : String) : Bool := charsContain s.data pat.data

/-- `err instanceof Error && err.message.toLowerCase().includes('permission')`
(src/accounts.ts:296). -/
def isPermissionError : JsThrown → Bool
  | .err m => jsIncludes (jsToLower m) "permission"
  | .other => false

/-- A parsed `new URL(u)`, reduced to the two components the code reads. -/
structure ParsedUrl where
  protocol : String
  hostname : String

/-- Scheme validity per WHATWG: a letter followed by letters, digits,
`+`, `-` or `.`. -/
def isSchemeChar (c : Char) : Bool :=
  c.isAlpha || c.isDigit || c = '+' || c = '-' || c = '.'

/-- Split a character list at the first `':'`; `none` when absent. -/
def splitColon : List Char → Option (List Char × List Char)
  | [] => none
  | c :: cs =>
    if c = ':' then some ([], cs)
    else (splitColon cs).map (fun p => (c :: p.1, p.2))

/-- Model of the WHATWG `URL` constructor, restricted to what
`normalizeUrl` inspects: a string `scheme:rest` with a well-formed scheme
parses; for the special schemes `http`/`https` the hostname is the
(lowercased) run after any leading slashes up to a delimiter, and an empty
hostname makes parsing fail.  Anything without a scheme fails. -/
def parseUrl (u : String) : Option ParsedUrl :=
  match splitColon u.data with
  | none => none
  | some (scheme, body) =>
    if scheme.isEmpty ∨ ¬ (scheme.all isSchemeChar) ∨
        ¬ (scheme.take 1).all Char.isAlpha then none
    else
      let protocol := jsToLower ⟨scheme⟩ ++ ":"
      if protocol = "http:" ∨ protocol = "https:" then
        let afterSlashes := body.dropWhile (fun c => c = '/')
        let host := afterSlashes.takeWhile (fun c =>
          ¬ (c = '/' ∨ c = ':' ∨ c = '?' ∨ c = '#' ∨ c = '\\'))
        if host.isEmpty then none
        else some ⟨protocol, jsToLower ⟨host⟩⟩
      else some ⟨protocol, ""⟩

/-- `normalizeUrl` (src/accounts.ts:274-284): `http(s)://host` becomes
`sc-domain:host`; anything else (including strings the URL parser
rejects) passes through unchanged. -/
def normalizeUrl (url : String) : String :=
  match parseUrl url with
  | some p =>
    if p.protocol = "http:" ∨ p.protocol = "https:" then
      "sc-domain:" ++ p.hostname
    else url
  | none => url

/-- `handlePermissionError` (src/accounts.ts:289-301): try the operation;
on a permission error run the fallback once; any other error propagates. -/
def handlePermissionError {α : Type} (operation fallback : Except JsThrown α) :
    Except JsThrown α :=
  match operation with
  | .ok v => .ok v
  | .error e => if isPermissionError e then fallback else .error e

/-- `searchAnalytics` (src/accounts.ts:314-323), abstracted over the
underlying `webmasters.searchanalytics.query` call (a function of the
`siteUrl` parameter). -/
def searchAnalytics {α : Type} (query : String → Except JsThrown α)
    (siteUrl : String) : Except JsThrown α :=
  handlePermissionError (query siteUrl) (query (normalizeUrl siteUrl))

/-- `listSitemaps` (src/accounts.ts:429-435). -/
def listSitemaps {α : Type} (list : String → Except JsThrown α)
    (siteUrl : String) : Except JsThrown α :=
  handlePermissionError (list siteUrl) (list (normalizeUrl siteUrl))

/-- `submitSitemap` (src/accounts.ts:440-449), with `feedpath` already
applied in the underlying call. -/
def submitSitemap {α : Type} (submit : String → Except JsThrown α)
    (siteUrl : String) : Except JsThrown α :=
  handlePermissionError (submit siteUrl) (submit (normalizeUrl siteUrl))

/-! ## Claim theorems: analytics engine -/

/-- The example row of the specification:
`{impressions: 1000, clicks: 20, ctr: 0.02, position: 6}`. -/
def exampleRow : ApiRow := ⟨none, some 20, some 1000, some (1/50), some 6⟩

theorem quickWinLE_trans (a b c : QuickWin) (h1 : quickWinLE a b)
    (h2 : quickWinLE b c) : quickWinLE a c := by
  simp only [quickWinLE, decide_eq_true_eq] at *
  exact le_trans h2 h1

theorem quickWinLE_total (a b : QuickWin) :
    quickWinLE a b || quickWinLE b a := by
  simp only [quickWinLE, Bool.or_eq_true, decide_eq_true_eq]
  exact le_total b.additionalClicks a.additionalClicks

/-- C3.  `detectQuickWins` keeps exactly the rows meeting the three
threshold conditions (on the zero-defaulted row fields), computes
`potentialClicks`, `additionalClicks` and the opportunity tier by the
stated formulas, and on the specification's example row (with the
schema-default thresholds, which it passes) yields `targetCtr = 5`,
`potentialClicks = 50`, `additionalClicks = 30`, opportunity `Medium`. -/
theorem detectQuickWins_row_computation :
    (∀ th row, passesQuickWinFilter th row = true ↔
      (th.minImpressions ≤ jsOrQ row.impressions 0 ∧
        (jsOrQ row.ctr 0) * 100 ≤ th.maxCtr ∧
        th.positionRangeMin ≤ jsOrQ row.position 0 ∧
        jsOrQ row.position 0 ≤ th.positionRangeMax)) ∧
    (∀ row, (toQuickWin row).potentialClicks =
      jsRound ((jsOrQ row.impressions 0 *
        (if jsOrQ row.position 0 ≤ 5 then 8
         else if jsOrQ row.position 0 ≤ 10 then 5 else 3)) / 100)) ∧
    (∀ row, (toQuickWin row).additionalClicks =
      max 0 ((toQuickWin row).potentialClicks - jsOrQ row.clicks 0)) ∧
    (∀ row, (toQuickWin row).opportunity =
      (if 100 ≤ (toQuickWin row).additionalClicks then Opportunity.High
       else if 30 ≤ (toQuickWin row).additionalClicks then Opportunity.Medium
       else Opportunity.Low)) ∧
    (passesQuickWinFilter defaultThresholds exampleRow = true ∧
      (if jsOrQ exampleRow.position 0 ≤ 5 then (8 : ℚ)
       else if jsOrQ exampleRow.position 0 ≤ 10 then 5 else 3) = 5 ∧
      (toQuickWin exampleRow).potentialClicks = 50 ∧
      (toQuickWin exampleRow).additionalClicks = 30 ∧
      (toQuickWin exampleRow).opportunity = Opportunity.Medium ∧
      detectQuickWins [exampleRow] defaultThresholds = [toQuickWin exampleRow]) := by
  refine ⟨?_, ?_, ?_, ?_, ?_, ?_, ?_, ?_, ?_, ?_⟩
  · intro th row
    simp [passesQuickWinFilter, and_assoc, ge_iff_le]
  · intro row
    rfl
  · intro row
    rw [show (toQuickWin row).additionalClicks =
      jsMax 0 ((toQuickWin row).potentialClicks - jsOrQ row.clicks 0) from rfl]
    exact jsMax_eq_max _ _
  · intro row
    rfl
  · norm_num [passesQuickWinFilter, exampleRow, jsOrQ, defaultThresholds]
  · norm_num [exampleRow, jsOrQ]
  · show jsRound ((jsOrQ exampleRow.impressions 0 *
      (if jsOrQ exampleRow.position 0 ≤ 5 then 8
       else if jsOrQ exampleRow.position 0 ≤ 10 then 5 else 3)) / 100) = 50
    norm_num [jsOrQ, exampleRow, jsRound, Rat.floor_def']
  · show jsMax 0 ((toQuickWin exampleRow).potentialClicks -
      jsOrQ exampleRow.clicks 0) = 30
    have h : (toQuickWin exampleRow).potentialClicks = 50 := by
      show jsRound ((jsOrQ exampleRow.impressions 0 *
        (if jsOrQ exampleRow.position 0 ≤ 5 then 8
         else if jsOrQ exampleRow.position 0 ≤ 10 then 5 else 3)) / 100) = 50
      norm_num [jsOrQ, exampleRow, jsRound, Rat.floor_def']
    rw [h]
    norm_num [jsOrQ, exampleRow, jsMax]
  · have h : (toQuickWin exampleRow).additionalClicks = 30 := by
      show jsMax 0 ((toQuickWin exampleRow).potentialClicks -
        jsOrQ exampleRow.clicks 0) = 30
      have h2 : (toQuickWin exampleRow).potentialClicks = 50 := by
        show jsRound ((jsOrQ exampleRow.impressions 0 *
          (if jsOrQ exampleRow.position 0 ≤ 5 then 8
           else if jsOrQ exampleRow.position 0 ≤ 10 then 5 else 3)) / 100) = 50
        norm_num [jsOrQ, exampleRow, jsRound, Rat.floor_def']
      rw [h2]
      norm_num [jsOrQ, exampleRow, jsMax]
    show (if 100 ≤ (toQuickWin exampleRow).additionalClicks then Opportunity.High
      else if 30 ≤ (toQuickWin exampleRow).additionalClicks then Opportunity.Medium
      else Opportunity.Low) = Opportunity.Medium
    rw [h]
    norm_num
  · have hpass : passesQuickWinFilter defaultThresholds exampleRow = true := by
      norm_num [passesQuickWinFilter, exampleRow, jsOrQ, defaultThresholds]
    simp [detectQuickWins, quickWinsSorted, hpass]
    decide

/-- The quick-wins filter only tightens when `minImpressions` rises, the
position window narrows, and `maxCtr` is unchanged. -/
theorem passesQuickWinFilter_mono (th th' : QuickWinThresholds)
    (h1 : th.minImpressions ≤ th'.minImpressions)
    (h2 : th.positionRangeMin ≤ th'.positionRangeMin)
    (h3 : th'.positionRangeMax ≤ th.positionRangeMax)
    (h4 : th'.maxCtr = th.maxCtr) (row : ApiRow)
    (h : passesQuickWinFilter th' row = true) :
    passesQuickWinFilter th row = true := by
  simp only [passesQuickWinFilter, Bool.and_eq_true, decide_eq_true_eq,
    ge_iff_le] at *
  exact ⟨⟨⟨le_trans h1 h.1.1.1, h4 ▸ h.1.1.2⟩, le_trans h2 h.1.2⟩,
    le_trans h.2 h3⟩

/-- C8.  For a fixed row set, raising `minImpressions`, raising
`positionRangeMin`, or lowering `positionRangeMax` (with `maxCtr` and
`limit` unchanged) never increases the number of rows `detectQuickWins`
returns. -/
theorem detectQuickWins_monotone (rows : List ApiRow)
    (th th' : QuickWinThresholds)
    (h1 : th.minImpressions ≤ th'.minImpressions)
    (h2 : th.positionRangeMin ≤ th'.positionRangeMin)
    (h3 : th'.positionRangeMax ≤ th.positionRangeMax)
    (h4 : th'.maxCtr = th.maxCtr) (h5 : th'.limit = th.limit) :
    (detectQuickWins rows th').length ≤ (detectQuickWins rows th).length := by
  unfold detectQuickWins quickWinsSorted
  rw [List.length_take, List.length_take, List.length_mergeSort,
    List.length_mergeSort, List.length_map, List.length_map, h5]
  exact min_le_min (Nat.le_refl _)
    (List.Sublist.length_le (List.monotone_filter_right rows
      (fun row h => passesQuickWinFilter_mono th th' h1 h2 h3 h4 row h)))

/-- C8 witness: tightening the default thresholds to
`minImpressions = 500` cannot grow the result. -/
theorem detectQuickWins_monotone_witness :
    (detectQuickWins [exampleRow]
        ⟨500, 3, 4, 20, 50⟩).length ≤
      (detectQuickWins [exampleRow] defaultThresholds).length :=
  detectQuickWins_monotone [exampleRow] defaultThresholds
    ⟨500, 3, 4, 20, 50⟩ (by decide) (by decide) (by decide) (by decide)
    (by decide)

/-- C9.  `detectQuickWins` is the `limit`-prefix of a stable descending
sort by `additionalClicks`: the sorted list is pairwise descending, and
for every value `k` of the sort key the rows carrying `k` appear in
exactly their original (filtered, mapped) order. -/
theorem detectQuickWins_sort_stable (rows : List ApiRow)
    (th : QuickWinThresholds) :
    detectQuickWins rows th = (quickWinsSorted rows th).take th.limit ∧
    (quickWinsSorted rows th).Pairwise
      (fun a b => b.additionalClicks ≤ a.additionalClicks) ∧
    ∀ k : ℚ, (quickWinsSorted rows th).filter
        (fun w => decide (w.additionalClicks = k)) =
      ((rows.filter (passesQuickWinFilter th)).map toQuickWin).filter
        (fun w => decide (w.additionalClicks = k)) := by
  refine ⟨rfl, ?_, ?_⟩
  · have h := List.sorted_mergeSort quickWinLE_trans
      quickWinLE_total ((rows.filter (passesQuickWinFilter th)).map toQuickWin)
    exact h.imp (fun hab => by
      simpa [quickWinLE, decide_eq_true_eq] using hab)
  · intro k
    set base := (rows.filter (passesQuickWinFilter th)).map toQuickWin with hbase
    set p : QuickWin → Bool := fun w => decide (w.additionalClicks = k) with hp
    have hall : ∀ x ∈ base.filter p, p x := fun x hx =>
      (List.mem_filter.mp hx).2
    have hpair : (base.filter p).Pairwise (fun a b => quickWinLE a b = true) := by
      apply List.pairwise_of_forall_mem_list
      intro a ha b hb
      have ha' := hall a ha
      have hb' := hall b hb
      simp only [hp, decide_eq_true_eq] at ha' hb'
      simp [quickWinLE, ha', hb']
    have hsub : List.Sublist (base.filter p) (base.mergeSort quickWinLE) :=
      List.sublist_mergeSort quickWinLE_trans quickWinLE_total hpair
        (List.filter_sublist base)
    have hsub2 : List.Sublist (base.filter p)
        ((base.mergeSort quickWinLE).filter p) := by
      have := hsub.filter p
      rwa [List.filter_eq_self.mpr hall] at this
    have hperm : List.Perm ((base.mergeSort quickWinLE).filter p)
        (base.filter p) :=
      (List.mergeSort_perm base quickWinLE).filter p
    exact (hsub2.eq_of_length hperm.length_eq.symm).symm

theorem roundTo1_zero : roundTo1 0 = 0 := by
  norm_num [roundTo1, jsRound, Rat.floor_def']

theorem roundTo2_zero : roundTo2 0 = 0 := by
  norm_num [roundTo2, jsRound, Rat.floor_def']

/-- C4.  Every current-period row yields exactly one comparison row (the
output is a permutation of the per-row map, so its length equals the
current row count); an unmatched row gets all-zero previous-period
metrics and a `null` click delta percent; and `clicksPercent` is the
rounded relative delta when previous clicks are positive and `null` when
they are zero. -/
theorem comparePeriods_total_join (currentRows previousRows : List ApiRow) :
    (comparePeriodsRows currentRows previousRows).length =
      currentRows.length ∧
    List.Perm (comparePeriodsRows currentRows previousRows)
      (currentRows.map (compareRow previousRows)) ∧
    (∀ row, previousLookupGet previousRows (jsOrStr (rowKey row) "") = none →
      (compareRow previousRows row).previous = ⟨0, 0, 0, 0⟩ ∧
      (compareRow previousRows row).change.clicksPercent = none) ∧
    (∀ row,
      (0 < jsOrQ ((previousLookupGet previousRows
          (jsOrStr (rowKey row) "")).bind ApiRow.clicks) 0 →
        (compareRow previousRows row).change.clicksPercent =
          some (roundTo1 (((jsOrQ row.clicks 0 -
              jsOrQ ((previousLookupGet previousRows
                (jsOrStr (rowKey row) "")).bind ApiRow.clicks) 0) /
            jsOrQ ((previousLookupGet previousRows
              (jsOrStr (rowKey row) "")).bind ApiRow.clicks) 0) * 100))) ∧
      (jsOrQ ((previousLookupGet previousRows
          (jsOrStr (rowKey row) "")).bind ApiRow.clicks) 0 = 0 →
        (compareRow previousRows row).change.clicksPercent = none)) := by
  refine ⟨?_, ?_, ?_, ?_⟩
  · rw [comparePeriodsRows, List.length_mergeSort, List.length_map]
  · exact List.mergeSort_perm _ _
  · intro row h
    constructor
    · show PeriodMetrics.mk
        (jsOrQ ((previousLookupGet previousRows
          (jsOrStr (rowKey row) "")).bind ApiRow.clicks) 0)
        (jsOrQ ((previousLookupGet previousRows
          (jsOrStr (rowKey row) "")).bind ApiRow.impressions) 0)
        (roundTo1 (jsOrQ ((previousLookupGet previousRows
          (jsOrStr (rowKey row) "")).bind ApiRow.position) 0))
        (roundTo2 ((jsOrQ ((previousLookupGet previousRows
          (jsOrStr (rowKey row) "")).bind ApiRow.ctr) 0) * 100)) = ⟨0, 0, 0, 0⟩
      rw [h]
      simp [jsOrQ, roundTo1_zero, roundTo2_zero]
    · show (if (0 : ℚ) < jsOrQ ((previousLookupGet previousRows
          (jsOrStr (rowKey row) "")).bind ApiRow.clicks) 0
        then some (roundTo1 (((jsOrQ row.clicks 0 -
            jsOrQ ((previousLookupGet previousRows
              (jsOrStr (rowKey row) "")).bind ApiRow.clicks) 0) /
          jsOrQ ((previousLookupGet previousRows
            (jsOrStr (rowKey row) "")).bind ApiRow.clicks) 0) * 100))
        else none) = none
      rw [h]
      simp [jsOrQ]
  · intro row
    constructor
    · intro h
      show (if (0 : ℚ) < jsOrQ ((previousLookupGet previousRows
          (jsOrStr (rowKey row) "")).bind ApiRow.clicks) 0
        then some (roundTo1 (((jsOrQ row.clicks 0 -
            jsOrQ ((previousLookupGet previousRows
              (jsOrStr (rowKey row) "")).bind ApiRow.clicks) 0) /
          jsOrQ ((previousLookupGet previousRows
            (jsOrStr (rowKey row) "")).bind ApiRow.clicks) 0) * 100))
        else none) = _
      rw [if_pos h]
    · intro h
      show (if (0 : ℚ) < jsOrQ ((previousLookupGet previousRows
          (jsOrStr (rowKey row) "")).bind ApiRow.clicks) 0
        then some (roundTo1 (((jsOrQ row.clicks 0 -
            jsOrQ ((previousLookupGet previousRows
              (jsOrStr (rowKey row) "")).bind ApiRow.clicks) 0) /
          jsOrQ ((previousLookupGet previousRows
            (jsOrStr (rowKey row) "")).bind ApiRow.clicks) 0) * 100))
        else none) = none
      rw [h]
      simp

/-- C4 witness: an unmatched current row against an empty previous
period, a matched row with previous clicks `100`, and a matched row with
previous clicks `0`, all at concrete inputs. -/
theorem comparePeriods_total_join_witness :
    ((compareRow [] ⟨some ["u"], some 5, some 10, some (1/10), some 2⟩).previous
        = ⟨0, 0, 0, 0⟩ ∧
      (compareRow [] ⟨some ["u"], some 5, some 10, some (1/10),
        some 2⟩).change.clicksPercent = none) ∧
    (compareRow [⟨some ["q"], some 100, none, none, none⟩]
        ⟨some ["q"], some 150, none, none, none⟩).change.clicksPercent =
      some (roundTo1 (((jsOrQ (some 150) 0 - jsOrQ (some 100) 0) /
        jsOrQ (some 100) 0) * 100)) ∧
    (compareRow [⟨some ["z"], some 0, none, none, none⟩]
        ⟨some ["z"], some 7, none, none, none⟩).change.clicksPercent =
      none := by
  refine ⟨(comparePeriods_total_join []
      [] ).2.2.1 ⟨some ["u"], some 5, some 10, some (1/10), some 2⟩ rfl,
    ?_, ?_⟩
  · exact ((comparePeriods_total_join [⟨some ["q"], some 150, none, none,
      none⟩] [⟨some ["q"], some 100, none, none, none⟩]).2.2.2
      ⟨some ["q"], some 150, none, none, none⟩).1 (by decide)
  · exact ((comparePeriods_total_join [⟨some ["z"], some 7, none, none,
      none⟩] [⟨some ["z"], some 0, none, none, none⟩]).2.2.2
      ⟨some ["z"], some 7, none, none, none⟩).2 (by decide)

/-- C5.  For the three site-URL calls under the fallback policy the
literal URL is attempted first: a success returns as-is; an error whose
message contains "permission" (case-insensitively) causes exactly one
retry whose outcome — success or failure — is returned unchanged; any
other error propagates without a retry.  `normalizeUrl` sends
`http(s)://host` to `sc-domain:host` and leaves `sc-domain:` URLs and
unparsable strings unchanged. -/
theorem permission_fallback_policy :
    (∀ (α : Type) (call : String → Except JsThrown α) (url : String),
      (∀ v, call url = .ok v →
        searchAnalytics call url = .ok v ∧
        listSitemaps call url = .ok v ∧
        submitSitemap call url = .ok v) ∧
      (∀ e, call url = .error e → isPermissionError e = true →
        searchAnalytics call url = call (normalizeUrl url) ∧
        listSitemaps call url = call (normalizeUrl url) ∧
        submitSitemap call url = call (normalizeUrl url)) ∧
      (∀ e, call url = .error e → isPermissionError e = false →
        searchAnalytics call url = .error e ∧
        listSitemaps call url = .error e ∧
        submitSitemap call url = .error e)) ∧
    normalizeUrl "https://example.com/path" = "sc-domain:example.com" ∧
    normalizeUrl "sc-domain:example.com" = "sc-domain:example.com" ∧
    normalizeUrl "not a url" = "not a url" := by
  refine ⟨?_, by decide, by decide, by decide⟩
  intro α call url
  refine ⟨?_, ?_, ?_⟩
  · intro v hv
    refine ⟨?_, ?_, ?_⟩ <;>
      simp [searchAnalytics, listSitemaps, submitSitemap,
        handlePermissionError, hv]
  · intro e he hp
    refine ⟨?_, ?_, ?_⟩ <;>
      simp [searchAnalytics, listSitemaps, submitSitemap,
        handlePermissionError, he, hp]
  · intro e he hp
    refine ⟨?_, ?_, ?_⟩ <;>
      simp [searchAnalytics, listSitemaps, submitSitemap,
        handlePermissionError, he, hp]

/-- C5 witness: a call that denies permission on the literal URL and
succeeds on the normalized one is retried exactly once and succeeds. -/
theorem permission_fallback_policy_witness :
    searchAnalytics (fun u => if u = "sc-domain:example.com"
        then Except.ok 1
        else Except.error (JsThrown.err "User does not have sufficient permission for this site"))
      "https://example.com/path" = Except.ok 1 := by
  have h := ((permission_fallback_policy.1 ℕ
      (fun u => if u = "sc-domain:example.com"
        then Except.ok 1
        else Except.error (JsThrown.err "User does not have sufficient permission for this site"))
      "https://example.com/path").2.1
      (JsThrown.err "User does not have sufficient permission for this site")
      (by decide) (by decide)).1
  exact h.trans (by decide)

/-! ## Claim theorems: credential lifecycle -/

/-- C1.  For any resolved account: the refresh call happens exactly when
the client credentials carry no (truthy) access token or the freshest
known expiry (`expiry_date`, else the account's `expiresAt`, else `0`)
is below `now + 60000` — when no refresh is needed the result does not
depend on the refresh outcome at all; a failing refresh fails the whole
call with an error naming the account's email; a successful refresh
installs the returned credentials; and whenever the refresh outcome is a
live token (truthy access token, expiry at least `now + 60000`) the
returned client is never stale. -/
theorem getAuthClient_refresh_policy (st : ManagerState)
    (sel : Option String) (now : ℕ) (ref : ℕ)
    (h : resolveRef st sel = .ok ref) (a : GSCAccount) (c : OAuth2Client)
    (ha : a = st.store.getD ref defaultAccount)
    (hc : c = obtainClient st a) :
    (needsRefresh c.credentials a now = true ↔
      (jsTruthyStr c.credentials.access_token = false ∨
        effectiveExpiry c.credentials a < now + 60000)) ∧
    (needsRefresh c.credentials a now = false →
      (∀ r₁ r₂ : Except String Credentials,
        getAuthClient st sel now r₁ = getAuthClient st sel now r₂) ∧
      ∀ r, (getAuthClient st sel now r).1 = .ok ⟨c, a⟩) ∧
    (needsRefresh c.credentials a now = true →
      ∀ e, (getAuthClient st sel now (.error e)).1 =
        .error ("Failed to refresh token for " ++ a.email ++ ": " ++ e)) ∧
    (needsRefresh c.credentials a now = true →
      ∀ creds, (getAuthClient st sel now (.ok creds)).1 =
        .ok ⟨{ c with credentials := creds },
          { a with accessToken := jsOrUndefStr creds.access_token,
                   expiresAt := jsOrUndefNat creds.expiry_date }⟩) ∧
    (∀ creds res, jsTruthyStr creds.access_token = true →
      now + 60000 ≤ jsOrNat creds.expiry_date 0 →
      (getAuthClient st sel now (.ok creds)).1 = .ok res →
      jsTruthyStr res.client.credentials.access_token = true ∧
      now + 60000 ≤ effectiveExpiry res.client.credentials res.account) := by
  subst ha
  subst hc
  refine ⟨?_, ?_, ?_, ?_, ?_⟩
  · simp [needsRefresh]
  · intro hn
    constructor
    · intro r₁ r₂
      simp only [getAuthClient, h, hn, Bool.false_eq_true, if_false]
    · intro r
      simp only [getAuthClient, h, hn, Bool.false_eq_true, if_false]
  · intro hn e
    simp only [getAuthClient, h, hn, if_true]
  · intro hn creds
    simp only [getAuthClient, h, hn, if_true]
  · intro creds res hat hexp hres
    by_cases hn : needsRefresh (obtainClient st
        (st.store.getD ref defaultAccount)).credentials
        (st.store.getD ref defaultAccount) now
    · simp only [getAuthClient, h, hn, if_true] at hres
      have hres' : res = ⟨{ obtainClient st (st.store.getD ref
          defaultAccount) with credentials := creds },
          { st.store.getD ref defaultAccount with
            accessToken := jsOrUndefStr creds.access_token,
            expiresAt := jsOrUndefNat creds.expiry_date }⟩ := by
        cases hres
        rfl
      subst hres'
      refine ⟨hat, ?_⟩
      match hcreds : creds.expiry_date with
      | none =>
        rw [hcreds] at hexp
        simp only [jsOrNat] at hexp
        omega
      | some d =>
        rw [hcreds] at hexp
        simp only [jsOrNat] at hexp
        by_cases hd : d = 0
        · rw [if_pos hd] at hexp
          omega
        · rw [if_neg hd] at hexp
          simp [effectiveExpiry, jsOrNat, hcreds, hd, hexp]
    · simp only [getAuthClient, h, hn, Bool.false_eq_true, if_false] at hres
      have hres' : res = ⟨obtainClient st (st.store.getD ref defaultAccount),
          st.store.getD ref defaultAccount⟩ := by
        cases hres
        rfl
      subst hres'
      simp only [needsRefresh, Bool.or_eq_true, Bool.not_eq_true',
        decide_eq_true_eq, not_or, Bool.not_eq_false] at hn
      push_neg at hn
      exact ⟨hn.1, hn.2⟩

/-- C1 witness: a single freshly registered account (no access token, so
a refresh is required): a failing refresh surfaces as a token-refresh
failure naming the email, and a successful refresh yields a live client. -/
theorem getAuthClient_refresh_policy_witness :
    (getAuthClient (regSeq "cid" "cs" [⟨"main", "me@x", "rt", none, none⟩])
        (some "main") 0 (.error "boom")).1 =
      .error "Failed to refresh token for me@x: boom" ∧
    (getAuthClient (regSeq "cid" "cs" [⟨"main", "me@x", "rt", none, none⟩])
        (some "main") 0
        (.ok ⟨some "rt", some "at", some 100000⟩)).1 =
      .ok ⟨⟨"cid", "cs", "http://localhost",
        ⟨some "rt", some "at", some 100000⟩⟩,
        ⟨"main", "me@x", "rt", some "at", some 100000⟩⟩ := by
  have h := getAuthClient_refresh_policy
    (regSeq "cid" "cs" [⟨"main", "me@x", "rt", none, none⟩]) (some "main")
    0 0 (by decide) _ _ rfl rfl
  constructor
  · exact (h.2.2.1 (by decide) "boom").trans (by decide)
  · exact (h.2.2.2.1 (by decide) ⟨some "rt", some "at",
      some 100000⟩).trans (by decide)

/-- C7.  Re-registering an account under an existing id replaces the
stored record and drops the cached auth client for that id, so the next
`getAuthClient` for it resolves the new record and builds a fresh client
seeded from the new refresh/access tokens (with no cached expiry). -/
theorem reregister_invalidates_cache (st : ManagerState) (a : GSCAccount)
    (r : ℕ) (h : mapGet st.accounts a.id = some r) :
    mapGet (addAccount st a).authClients a.id = none ∧
    getAccount (addAccount st a) a.id = some a ∧
    resolveRef (addAccount st a) (some a.id) = .ok st.store.length ∧
    obtainClient (addAccount st a) a = freshClient (addAccount st a) a ∧
    freshClient (addAccount st a) a =
      ⟨st.clientId, st.clientSecret, "http://localhost",
        ⟨some a.refreshToken, a.accessToken, none⟩⟩ := by
  have hclients : mapGet (addAccount st a).authClients a.id = none := by
    show mapGet (mapDelete (mapDelete st.authClients a.id)
      (jsToLower a.email)) a.id = none
    by_cases he : a.id = jsToLower a.email
    · rw [← he, mapGet_mapDelete_self]
    · rw [mapGet_mapDelete_ne _ _ _ he, mapGet_mapDelete_self]
  have href : mapGet (addAccount st a).accounts a.id = some st.store.length := by
    show mapGet (mapSet (mapSet st.accounts a.id st.store.length)
      (jsToLower a.email) st.store.length) a.id = some st.store.length
    by_cases he : a.id = jsToLower a.email
    · rw [← he, mapGet_mapSet_self]
    · rw [mapGet_mapSet_ne _ _ _ _ he, mapGet_mapSet_self]
  refine ⟨hclients, ?_, ?_, ?_, rfl⟩
  · show ((match mapGet (addAccount st a).accounts a.id with
      | some r => some r
      | none => mapGet (addAccount st a).accounts (jsToLower a.id)).map
        (fun r => (addAccount st a).store.getD r defaultAccount)) = some a
    rw [href]
    show some ((st.store ++ [a]).getD st.store.length defaultAccount) = some a
    rw [List.getD, List.get?_concat_length]
    rfl
  · show (match getAccountRef (addAccount st a) a.id with
      | some r => Except.ok r
      | none => Except.error ("Account not found: " ++ a.id)) =
      Except.ok st.store.length
    rw [getAccountRef, href]
  · rw [obtainClient, hclients]

/-- C7 witness: re-registering id `main` with a new refresh token on a
manager that already holds `main` (with a cached client) invalidates the
cache and re-seeds from the new credentials. -/
theorem reregister_invalidates_cache_witness :
    mapGet (addAccount (getAuthClient
        (regSeq "cid" "cs" [⟨"main", "old@x", "rt1", none, none⟩])
        (some "main") 0 (.ok ⟨some "rt1", some "at1", some 100000⟩)).2
        ⟨"main", "new@x", "rt2", some "at2", none⟩).authClients "main" =
      none ∧
    getAccount (addAccount (getAuthClient
        (regSeq "cid" "cs" [⟨"main", "old@x", "rt1", none, none⟩])
        (some "main") 0 (.ok ⟨some "rt1", some "at1", some 100000⟩)).2
        ⟨"main", "new@x", "rt2", some "at2", none⟩) "main" =
      some ⟨"main", "new@x", "rt2", some "at2", none⟩ := by
  have h := reregister_invalidates_cache
    (getAuthClient (regSeq "cid" "cs" [⟨"main", "old@x", "rt1", none, none⟩])
      (some "main") 0 (.ok ⟨some "rt1", some "at1", some 100000⟩)).2
    ⟨"main", "new@x", "rt2", some "at2", none⟩ 0 (by decide)
  exact ⟨h.1, h.2.1⟩

/-! ## Registration sequences: which map entry a key ends up at

`addAccount` writes the new record's store index under two keys (`id`,
lowercased email); over a whole registration sequence the value found
under a key is the index of the last registration that wrote that key. -/

/-- Does registering `b` write the map key `k`? -/
def writesKey (b : GSCAccount) (k : String) : Bool :=
  b.id = k || jsToLower b.email = k

/-- Index (into the registration list) of the last registration writing
key `k`. -/
def lastWriterIdx : List GSCAccount → String → Option ℕ
  | [], _ => none
  | b :: rest, k =>
    match lastWriterIdx rest k with
    | some i => some (i + 1)
    | none => if writesKey b k then some 0 else none

theorem store_foldl_addAccount (l : List GSCAccount) (st : ManagerState) :
    (l.foldl addAccount st).store = st.store ++ l := by
  induction l generalizing st with
  | nil => simp
  | cons b rest ih =>
    show (rest.foldl addAccount (addAccount st b)).store = _
    rw [ih, addAccount]
    simp

theorem mapGet_addAccount (st : ManagerState) (b : GSCAccount)
    (k : String) :
    mapGet (addAccount st b).accounts k =
      if writesKey b k then some st.store.length
      else mapGet st.accounts k := by
  show mapGet (mapSet (mapSet st.accounts b.id st.store.length)
    (jsToLower b.email) st.store.length) k = _
  by_cases he : k = jsToLower b.email
  · rw [← he, mapGet_mapSet_self]
    have : writesKey b k = true := by
      simp [writesKey, he]
    rw [if_pos this]
  · rw [mapGet_mapSet_ne _ _ _ _ he]
    by_cases hi : k = b.id
    · rw [← hi, mapGet_mapSet_self]
      have : writesKey b k = true := by
        simp [writesKey, hi]
      rw [if_pos this]
    · rw [mapGet_mapSet_ne _ _ _ _ hi]
      have : writesKey b k = false := by
        simp only [writesKey, Bool.or_eq_false_iff, decide_eq_false_iff_not]
        exact ⟨fun hh => hi hh.symm, fun hh => he hh.symm⟩
      rw [if_neg (by simp [this])]

theorem mapGet_foldl_addAccount (l : List GSCAccount) (st : ManagerState)
    (k : String) :
    mapGet (l.foldl addAccount st).accounts k =
      match lastWriterIdx l k with
      | some i => some (st.store.length + i)
      | none => mapGet st.accounts k := by
  induction l generalizing st with
  | nil => rfl
  | cons b rest ih =>
    show mapGet (rest.foldl addAccount (addAccount st b)).accounts k = _
    rw [ih (addAccount st b)]
    have hlen : (addAccount st b).store.length = st.store.length + 1 := by
      show (st.store ++ [b]).length = st.store.length + 1
      simp
    match hrest : lastWriterIdx rest k with
    | some i =>
      simp only [lastWriterIdx, hrest, hlen]
      congr 1
      omega
    | none =>
      simp only [lastWriterIdx, hrest, mapGet_addAccount]
      by_cases hw : writesKey b k
      · rw [if_pos hw, if_pos hw]
        simp
      · rw [if_neg hw, if_neg hw]

theorem mapGet_regSeq (cid cs : String) (l : List GSCAccount)
    (k : String) :
    mapGet (regSeq cid cs l).accounts k = lastWriterIdx l k := by
  rw [regSeq, mapGet_foldl_addAccount]
  cases h : lastWriterIdx l k <;> simp [h, emptyManager, mapGet]

theorem store_regSeq (cid cs : String) (l : List GSCAccount) :
    (regSeq cid cs l).store = l := by
  rw [regSeq, store_foldl_addAccount]
  rfl

theorem lastWriterIdx_congr (l : List GSCAccount) (k₁ k₂ : String)
    (h : ∀ b ∈ l, writesKey b k₁ = writesKey b k₂) :
    lastWriterIdx l k₁ = lastWriterIdx l k₂ := by
  induction l with
  | nil => rfl
  | cons b rest ih =>
    have hrest := ih (fun x hx => h x (by simp [hx]))
    simp only [lastWriterIdx, hrest, h b (by simp)]

theorem lastWriterIdx_isSome (l : List GSCAccount) (k : String)
    (a : GSCAccount) (ha : a ∈ l) (hw : writesKey a k = true) :
    (lastWriterIdx l k).isSome = true := by
  induction l with
  | nil => simp at ha
  | cons b rest ih =>
    rcases List.mem_cons.mp ha with h | h
    · subst h
      match hrest : lastWriterIdx rest k with
      | some i => simp [lastWriterIdx, hrest]
      | none => simp [lastWriterIdx, hrest, hw]
    · have := ih h
      match hrest : lastWriterIdx rest k with
      | some i => simp [lastWriterIdx, hrest]
      | none => rw [hrest] at this
                simp at this

theorem getAccountRef_regSeq (cid cs : String) (l : List GSCAccount)
    (k : String) :
    getAccountRef (regSeq cid cs l) k =
      match lastWriterIdx l k with
      | some i => some i
      | none => lastWriterIdx l (jsToLower k) := by
  rw [getAccountRef, mapGet_regSeq, mapGet_regSeq]

/-- If no registration in `l` writes key `k` and the map starts with the
entry `(k, v)`, the fold keeps that entry at the head with its value. -/
theorem accounts_head_foldl (l : List GSCAccount) (st : ManagerState)
    (k : String) (v : ℕ) (t : List (String × ℕ))
    (hst : st.accounts = (k, v) :: t)
    (hno : ∀ b ∈ l, writesKey b k = false) :
    ∃ t', (l.foldl addAccount st).accounts = (k, v) :: t' := by
  induction l generalizing st t with
  | nil => exact ⟨t, hst⟩
  | cons b rest ih =>
    have hb := hno b (by simp)
    simp only [writesKey, Bool.or_eq_false_iff, decide_eq_false_iff_not] at hb
    have hk1 : ¬ (k = b.id) := fun hh => hb.1 hh.symm
    have hk2 : ¬ (k = jsToLower b.email) := fun hh => hb.2 hh.symm
    have hstep : (addAccount st b).accounts =
        (k, v) :: mapSet (mapSet t b.id st.store.length)
          (jsToLower b.email) st.store.length := by
      show mapSet (mapSet st.accounts b.id st.store.length)
        (jsToLower b.email) st.store.length = _
      rw [hst]
      simp only [mapSet, hk1, hk2, if_false]
    exact ih (addAccount st b) _ hstep (fun x hx => hno x (by simp [hx]))

theorem lastWriterIdx_eq_none (l : List GSCAccount) (k : String)
    (h : ∀ b ∈ l, writesKey b k = false) : lastWriterIdx l k = none := by
  induction l with
  | nil => rfl
  | cons b rest ih =>
    have hrest := ih (fun x hx => h x (by simp [hx]))
    simp [lastWriterIdx, hrest, h b (by simp)]

theorem char_toLower_idem (c : Char) : c.toLower.toLower = c.toLower := by
  unfold Char.toLower
  by_cases h : c.toNat ≥ 65 ∧ c.toNat ≤ 90
  · rw [if_pos h]
    have hvalid : (c.toNat + 32).isValidChar := Or.inl (by omega)
    have hv : (Char.ofNat (c.toNat + 32)).toNat = c.toNat + 32 := by
      rw [Char.ofNat, dif_pos hvalid]
      rfl
    rw [if_neg (by rw [hv]; omega)]
  · rw [if_neg h, if_neg h]

theorem jsToLower_idem (s : String) :
    jsToLower (jsToLower s) = jsToLower s := by
  simp only [jsToLower]
  congr 1
  rw [List.map_map]
  exact List.map_congr_left (fun a _ => char_toLower_idem a)

/-! ## Claim theorems: account lookup and default selection -/

/-- C2 counterexample: after registering id `"b"` and then id `"a"`,
`getAuthClient` with no selector picks the account `"b"` (backing-map
insertion order), not the lexicographically-first registered id `"a"`. -/
theorem getAuthClient_default_selection_counterexample :
    ((getAuthClient (regSeq "cid" "cs"
          [⟨"b", "b@x", "t1", none, none⟩, ⟨"a", "a@x", "t2", none, none⟩])
        none 0 (.ok ⟨some "rt", some "at", some 100000⟩)).1.toOption.map
      (fun r => r.account.id)) = some "b" ∧
    (listAccounts (regSeq "cid" "cs"
        [⟨"b", "b@x", "t1", none, none⟩,
         ⟨"a", "a@x", "t2", none, none⟩])).map Prod.fst = ["b", "a"] ∧
    ("a" : String).data < ("b" : String).data ∧ ("a" : String) ≠ "b" := by
  decide

/-- C2 amended.  With no selector and at least one registered account,
`getAuthClient`'s selection step picks the FIRST-REGISTERED distinct
account (backing-map insertion order, not lexicographic order), provided
no later registration wrote over that account's `id` key; with zero
accounts it fails with the no-accounts-configured error. -/
theorem getAuthClient_default_selection (cid cs : String)
    (a₀ : GSCAccount) (rest : List GSCAccount)
    (hno : ∀ b ∈ rest, b.id ≠ a₀.id ∧ jsToLower b.email ≠ a₀.id) :
    resolveRef (regSeq cid cs (a₀ :: rest)) none = .ok 0 ∧
    (regSeq cid cs (a₀ :: rest)).store.getD 0 defaultAccount = a₀ ∧
    ∀ now r, getAuthClient (regSeq cid cs []) none now r =
      (.error "No accounts configured. Use register_account or set GSC_ACCOUNTS_JSON/GSC_ACCOUNTS_FILE",
        regSeq cid cs []) := by
  have hstore : (regSeq cid cs (a₀ :: rest)).store = a₀ :: rest :=
    store_regSeq cid cs _
  have hnoW : ∀ b ∈ rest, writesKey b a₀.id = false := by
    intro b hb
    have := hno b hb
    simp [writesKey, this.1, this.2]
  have hhead : ∃ t', (regSeq cid cs (a₀ :: rest)).accounts =
      (a₀.id, 0) :: t' := by
    show ∃ t', (rest.foldl addAccount
      (addAccount (emptyManager cid cs) a₀)).accounts = _
    have h0 : ∃ t0, (addAccount (emptyManager cid cs) a₀).accounts =
        (a₀.id, 0) :: t0 := by
      by_cases heq : a₀.id = jsToLower a₀.email
      · refine ⟨[], ?_⟩
        show mapSet (mapSet [] a₀.id 0) (jsToLower a₀.email) 0 = _
        rw [← heq]
        simp [mapSet]
      · refine ⟨[(jsToLower a₀.email, 0)], ?_⟩
        show mapSet (mapSet [] a₀.id 0) (jsToLower a₀.email) 0 = _
        simp [mapSet, heq]
    obtain ⟨t0, ht0⟩ := h0
    exact accounts_head_foldl rest _ _ _ _ ht0 hnoW
  obtain ⟨t', hacc⟩ := hhead
  have hgetD : (regSeq cid cs (a₀ :: rest)).store.getD 0 defaultAccount =
      a₀ := by
    rw [hstore]
    rfl
  refine ⟨?_, hgetD, ?_⟩
  · have hlist : ∃ tl, listAccounts (regSeq cid cs (a₀ :: rest)) =
        (a₀.id, a₀.email) :: tl := by
      rw [listAccounts, hacc]
      simp only [listAccountsAux, hstore]
      rw [show (a₀ :: rest).getD 0 defaultAccount = a₀ from rfl]
      simp
    obtain ⟨tl, hl⟩ := hlist
    have hgetref : getAccountRef (regSeq cid cs (a₀ :: rest)) a₀.id =
        some 0 := by
      rw [getAccountRef]
      rw [show mapGet (regSeq cid cs (a₀ :: rest)).accounts a₀.id =
        some 0 from by rw [hacc]; simp [mapGet]]
    rw [resolveRef, hl]
    show (match getAccountRef (regSeq cid cs (a₀ :: rest)) a₀.id with
      | some r => Except.ok r
      | none => Except.error "TypeError: account is undefined") =
      Except.ok 0
    rw [hgetref]
  · intro now r
    rfl

/-- C2 amended witness: two accounts registered in the order `b`, `a`;
the default selection resolves the first-registered account `b`. -/
theorem getAuthClient_default_selection_witness :
    resolveRef (regSeq "cid" "cs"
      [⟨"b", "b@x", "t1", none, none⟩, ⟨"a", "a@x", "t2", none, none⟩])
      none = .ok 0 ∧
    (regSeq "cid" "cs"
      [⟨"b", "b@x", "t1", none, none⟩,
       ⟨"a", "a@x", "t2", none, none⟩]).store.getD 0 defaultAccount =
      ⟨"b", "b@x", "t1", none, none⟩ ∧
    ∀ now r, getAuthClient (regSeq "cid" "cs" []) none now r =
      (.error "No accounts configured. Use register_account or set GSC_ACCOUNTS_JSON/GSC_ACCOUNTS_FILE",
        regSeq "cid" "cs" []) :=
  getAuthClient_default_selection "cid" "cs" ⟨"b", "b@x", "t1", none, none⟩
    [⟨"a", "a@x", "t2", none, none⟩] (by decide)

/-- C6 counterexample: register `(id "a", email "B")` then
`(id "b", email "c")`.  The second registration's `id` key `"b"`
overwrites the first account's lowercased-email key, so looking the
still-registered first account up by its email `"B"` returns the second
account's record while looking it up by id `"a"` returns the first's. -/
theorem getAccount_dual_key_counterexample :
    (listAccounts (regSeq "cid" "cs"
        [⟨"a", "B", "t1", none, none⟩,
         ⟨"b", "c", "t2", none, none⟩])).map Prod.fst = ["a", "b"] ∧
    (getAccount (regSeq "cid" "cs"
        [⟨"a", "B", "t1", none, none⟩, ⟨"b", "c", "t2", none, none⟩])
        "a").map GSCAccount.refreshToken = some "t1" ∧
    (getAccount (regSeq "cid" "cs"
        [⟨"a", "B", "t1", none, none⟩, ⟨"b", "c", "t2", none, none⟩])
        "B").map GSCAccount.refreshToken = some "t2" ∧
    getAccount (regSeq "cid" "cs"
        [⟨"a", "B", "t1", none, none⟩, ⟨"b", "c", "t2", none, none⟩])
        "a" ≠
      getAccount (regSeq "cid" "cs"
        [⟨"a", "B", "t1", none, none⟩, ⟨"b", "c", "t2", none, none⟩])
        "B" := by
  decide

/-- C6 amended.  For registration sequences whose ids are lowercase,
where re-registrations of an id keep its email, and where distinct ids
have disjoint key sets (no id equals another account's id or lowercased
email, no two lowercased emails collide), every registered account is
reachable by its id and by its email in any letter case, and both
lookups return the same record. -/
theorem getAccount_dual_key (cid cs : String) (l : List GSCAccount)
    (hfix : ∀ b ∈ l, jsToLower b.id = b.id)
    (hsame : ∀ b₁ ∈ l, ∀ b₂ ∈ l, b₁.id = b₂.id → b₁.email = b₂.email)
    (hdisj : ∀ b₁ ∈ l, ∀ b₂ ∈ l, b₁.id ≠ b₂.id →
      b₁.id ≠ jsToLower b₂.email ∧
      jsToLower b₁.email ≠ jsToLower b₂.email)
    (a : GSCAccount) (ha : a ∈ l) (c : String)
    (hc : jsToLower c = jsToLower a.email) :
    getAccount (regSeq cid cs l) a.id = getAccount (regSeq cid cs l) c ∧
    (getAccount (regSeq cid cs l) a.id).isSome = true := by
  have hW : ∀ b ∈ l, writesKey b a.id = writesKey b (jsToLower a.email) := by
    intro b hb
    by_cases hid : b.id = a.id
    · have hem : b.email = a.email := hsame b hb a ha hid
      simp [writesKey, hid, hem]
    · have hd1 := hdisj a ha b hb (fun hh => hid hh.symm)
      have hd2 := hdisj b hb a ha hid
      simp [writesKey, hid, Ne.symm hd1.1, hd2.1, hd2.2]
  have hidx : lastWriterIdx l a.id = lastWriterIdx l (jsToLower a.email) :=
    lastWriterIdx_congr l _ _ hW
  have hsome : (lastWriterIdx l a.id).isSome = true :=
    lastWriterIdx_isSome l a.id a ha (by simp [writesKey])
  obtain ⟨i, hi⟩ := Option.isSome_iff_exists.mp hsome
  have g1 : getAccountRef (regSeq cid cs l) a.id = some i := by
    rw [getAccountRef_regSeq, hi]
  have g2 : getAccountRef (regSeq cid cs l) c = some i := by
    rw [getAccountRef_regSeq]
    by_cases hce : c = jsToLower a.email
    · rw [hce, ← hidx, hi]
    · have hnone : lastWriterIdx l c = none := by
        apply lastWriterIdx_eq_none
        intro b hb
        simp only [writesKey, Bool.or_eq_false_iff,
          decide_eq_false_iff_not]
        constructor
        · intro hh
          apply hce
          rw [← hc, ← hh]
          exact (hfix b hb).symm
        · intro hh
          apply hce
          rw [← hc, ← hh, jsToLower_idem]
      rw [hnone, hc, ← hidx, hi]
  rw [getAccount, getAccount, g1, g2]
  simp

/-- C6 amended witness: two accounts with disjoint lowercase keys; the
first is reachable by id `alice` and by the uppercase email variant
`"ALICE@X"`, yielding the same record. -/
theorem getAccount_dual_key_witness :
    getAccount (regSeq "cid" "cs"
        [⟨"alice", "Alice@x", "t1", none, none⟩,
         ⟨"bob", "bob@y", "t2", none, none⟩]) "alice" =
      getAccount (regSeq "cid" "cs"
        [⟨"alice", "Alice@x", "t1", none, none⟩,
         ⟨"bob", "bob@y", "t2", none, none⟩]) "ALICE@X" ∧
    (getAccount (regSeq "cid" "cs"
        [⟨"alice", "Alice@x", "t1", none, none⟩,
         ⟨"bob", "bob@y", "t2", none, none⟩]) "alice").isSome = true :=
  getAccount_dual_key "cid" "cs"
    [⟨"alice", "Alice@x", "t1", none, none⟩,
     ⟨"bob", "bob@y", "t2", none, none⟩]
    (by decide) (by decide) (by decide)
    ⟨"alice", "Alice@x", "t1", none, none⟩ (by decide) "ALICE@X" (by decide)

/-- C10 counterexample: re-registering id `main` with an email differing
only in letter case overwrites the shared lowercased-email key, so the
old email string no longer resolves to the old record: it yields the new
record with token `tB`, not the old `tA`. -/
theorem reregister_stale_email_counterexample :
    ("User@x" : String) ≠ "user@x" ∧
    (getAccount (regSeq "cid" "cs"
        [⟨"main", "User@x", "tA", none, none⟩,
         ⟨"main", "user@x", "tB", none, none⟩]) "User@x").map
      GSCAccount.refreshToken = some "tB" ∧
    (getAccount (regSeq "cid" "cs"
        [⟨"main", "User@x", "tA", none, none⟩,
         ⟨"main", "user@x", "tB", none, none⟩]) "User@x").map
      GSCAccount.refreshToken ≠ some "tA" := by
  decide

/-- C10 amended.  After `register(id, emailA, tokenA)` then
`register(id, emailB, tokenB)` where the emails differ even after
lowercasing and `emailA` (in either case form) does not collide with the
id, the old lowercased-email key still maps to the old record (carrying
`tokenA`), while lookup by id or by `emailB` yields the new record. -/
theorem reregister_stale_email (cid cs : String) (a₁ : GSCAccount)
    (email₂ refreshToken₂ : String) (access₂ : Option String)
    (h1 : jsToLower a₁.email ≠ jsToLower email₂)
    (h2 : a₁.email ≠ a₁.id)
    (h3 : jsToLower a₁.email ≠ a₁.id) :
    getAccount (regSeq cid cs
        [a₁, ⟨a₁.id, email₂, refreshToken₂, access₂, none⟩]) a₁.email =
      some a₁ ∧
    getAccount (regSeq cid cs
        [a₁, ⟨a₁.id, email₂, refreshToken₂, access₂, none⟩]) a₁.id =
      some ⟨a₁.id, email₂, refreshToken₂, access₂, none⟩ ∧
    getAccount (regSeq cid cs
        [a₁, ⟨a₁.id, email₂, refreshToken₂, access₂, none⟩]) email₂ =
      some ⟨a₁.id, email₂, refreshToken₂, access₂, none⟩ := by
  set a₂ : GSCAccount := ⟨a₁.id, email₂, refreshToken₂, access₂, none⟩
    with ha₂
  have hw2e1 : writesKey a₂ a₁.email = false := by
    simp only [writesKey, ha₂, Bool.or_eq_false_iff,
      decide_eq_false_iff_not]
    refine ⟨fun hh => h2 hh.symm, fun hh => ?_⟩
    apply h1
    rw [← hh, jsToLower_idem]
  have hw2low : writesKey a₂ (jsToLower a₁.email) = false := by
    simp only [writesKey, ha₂, Bool.or_eq_false_iff,
      decide_eq_false_iff_not]
    exact ⟨fun hh => h3 hh.symm, fun hh => h1 hh.symm⟩
  refine ⟨?_, ?_, ?_⟩
  · rw [getAccount, getAccountRef_regSeq]
    by_cases hlow : jsToLower a₁.email = a₁.email
    · have hw1t : writesKey a₁ a₁.email = true := by
        simp [writesKey, hlow]
      rw [show lastWriterIdx [a₁, a₂] a₁.email = some 0 from by
        simp [lastWriterIdx, hw2e1, hw1t]]
      rfl
    · have hw1 : writesKey a₁ a₁.email = false := by
        simp only [writesKey, Bool.or_eq_false_iff,
          decide_eq_false_iff_not]
        exact ⟨fun hh => h2 hh.symm, hlow⟩
      rw [show lastWriterIdx [a₁, a₂] a₁.email = none from by
        simp [lastWriterIdx, hw2e1, hw1]]
      have hw1lowt : writesKey a₁ (jsToLower a₁.email) = true := by
        simp [writesKey]
      rw [show lastWriterIdx [a₁, a₂] (jsToLower a₁.email) = some 0 from by
        simp [lastWriterIdx, hw2low, hw1lowt]]
      rfl
  · rw [getAccount, getAccountRef_regSeq]
    have hw2idt : writesKey a₂ a₁.id = true := by
      simp [writesKey, ha₂]
    rw [show lastWriterIdx [a₁, a₂] a₁.id = some 1 from by
      simp [lastWriterIdx, hw2idt]]
    rfl
  · rw [getAccount, getAccountRef_regSeq]
    by_cases hw2 : writesKey a₂ email₂ = true
    · rw [show lastWriterIdx [a₁, a₂] email₂ = some 1 from by
        simp [lastWriterIdx, hw2]]
      rfl
    · have hw2f : writesKey a₂ email₂ = false := by
        simpa using hw2
      obtain ⟨hne1, hne2⟩ : ¬ (a₁.id = email₂) ∧
          ¬ (jsToLower email₂ = email₂) := by
        simpa [writesKey, ha₂] using hw2f
      have hw1f : writesKey a₁ email₂ = false := by
        simp only [writesKey, Bool.or_eq_false_iff,
          decide_eq_false_iff_not]
        refine ⟨hne1, fun hh => hne2 ?_⟩
        rw [← hh, jsToLower_idem]
      rw [show lastWriterIdx [a₁, a₂] email₂ = none from by
        simp [lastWriterIdx, hw2f, hw1f]]
      have hw2lowt : writesKey a₂ (jsToLower email₂) = true := by
        simp [writesKey, ha₂]
      rw [show lastWriterIdx [a₁, a₂] (jsToLower email₂) = some 1 from by
        simp [lastWriterIdx, hw2lowt]]
      rfl

/-- C10 amended witness: `register("main", "User@x", "tA")` then
`register("main", "admin@y", "tB")`: the stale key `user@x` still
resolves to the old record, while `main` and `admin@y` resolve to the
new one. -/
theorem reregister_stale_email_witness :
    getAccount (regSeq "cid" "cs"
        [⟨"main", "User@x", "tA", none, none⟩,
         ⟨"main", "admin@y", "tB", some "at", none⟩]) "User@x" =
      some ⟨"main", "User@x", "tA", none, none⟩ ∧
    getAccount (regSeq "cid" "cs"
        [⟨"main", "User@x", "tA", none, none⟩,
         ⟨"main", "admin@y", "tB", some "at", none⟩]) "main" =
      some ⟨"main", "admin@y", "tB", some "at", none⟩ ∧
    getAccount (regSeq "cid" "cs"
        [⟨"main", "User@x", "tA", none, none⟩,
         ⟨"main", "admin@y", "tB", some "at", none⟩]) "admin@y" =
      some ⟨"main", "admin@y", "tB", some "at", none⟩ :=
  reregister_stale_email "cid" "cs" ⟨"main", "User@x", "tA", none, none⟩
    "admin@y" "tB" (some "at") (by decide) (by decide) (by decide)

end GSC
